import Mathlib

/-!
Verification development for the YT-RSS-Server repository (`server.js`).

The JavaScript source is shallowly embedded below: pure helper functions
become Lean functions; the process-wide mutable `rssCache` and the on-disk
covers cache become explicit state values threaded through the route
handlers; the results of awaited I/O (directory hash, feed build, image
download, image pipeline) are passed in as parameters, since the handlers
only branch on their outcomes.  Machine arithmetic in the source is plain
JavaScript number arithmetic on small non-negative integers (timestamps,
pixel sizes, byte counts), embedded as `Nat`.
-/

namespace YtRss

/-- Character-level take on a string; the digest strings handled by the
source are ASCII hex, so JS `substring` positions coincide with character
positions. -/
def strTake (s : String) (n : Nat) : String :=
  (s.toList.take n).asString

/-- Character-level drop on a string (see `strTake`). -/
def strDrop (s : String) (n : Nat) : String :=
  (s.toList.drop n).asString

/-- Embeds `n.toString().padStart(2, '0')` for the minute/second components
(always below 60 in the source). -/
def pad2 (n : Nat) : String :=
  if n < 10 then "0" ++ toString n else toString n

/-- Embeds `formatDuration(seconds)` from server.js.  The source receives a JS
number and first tests `!seconds || isNaN(seconds)`; for the non-negative
integral durations modelled here that test is `seconds = 0`.  Then
`hrs = Math.floor(seconds / 3600)`, `mins = Math.floor((seconds % 3600) / 60)`,
`secs = Math.floor(seconds % 60)` (Nat division/modulo are exactly these
floors). -/
def formatDuration (seconds : Nat) : String :=
  if seconds = 0 then "00:00"
  else
    let hrs := seconds / 3600
    let mins := (seconds % 3600) / 60
    let secs := seconds % 60
    if hrs > 0 then
      toString hrs ++ ":" ++ pad2 mins ++ ":" ++ pad2 secs
    else
      toString mins ++ ":" ++ pad2 secs

/-- The slice of `fs.stat` that the source consumes: `stat.size` and
`stat.mtime` (the latter is used only for `pubDate`, never for identity). -/
structure FileStat where
  size : Nat
  mtimeMs : Nat
deriving DecidableEq, Repr

/-- Embeds `hash.substring(0, 8) + '-' + hash.substring(8, 12) + '-' + ...` —
the UUID-shaped formatting of a hex digest used by `generateStableGuid`. -/
def formatUuidFromHex (hex : String) : String :=
  strTake hex 8 ++ "-" ++ strTake (strDrop hex 8) 4 ++ "-" ++
    strTake (strDrop hex 12) 4 ++ "-" ++ strTake (strDrop hex 16) 4 ++ "-" ++
    strTake (strDrop hex 20) 12

/-- The guid value computed for a cache key `filePath + ':' + size`
(the body of the non-memoized path of `generateStableGuid`).  The SHA-256
hex digest is abstracted as a function parameter `sha256hex`; the source's
`crypto.createHash('sha256')` is a fixed deterministic function of its
input string. -/
def computeGuidOfKey (sha256hex : String → String) (fileKey : String) : String :=
  "urn:uuid:" ++ formatUuidFromHex (sha256hex fileKey)

/-- The guid as a function of the file path and size alone. -/
def computeStableGuid (sha256hex : String → String) (filePath : String) (size : Nat) : String :=
  computeGuidOfKey sha256hex (filePath ++ ":" ++ toString size)

/-- Embeds `generateStableGuid(filePath, stat)` from server.js, with the
process-wide `fileGuidCache` map threaded explicitly (association list,
most recent insertion first).  The `catch` branch of the source guards
against `crypto` failures, which cannot occur in this model, so only the
`try` path is embedded. -/
def generateStableGuid (sha256hex : String → String) (cache : List (String × String))
    (filePath : String) (stat : FileStat) : String × List (String × String) :=
  let fileKey := filePath ++ ":" ++ toString stat.size
  match cache.find? (fun p => p.1 == fileKey) with
  | some p => (p.2, cache)
  | none =>
    let guid := computeGuidOfKey sha256hex fileKey
    (guid, (fileKey, guid) :: cache)

/-- The invariant maintained by the `fileGuidCache` map: every stored
entry is the guid computed from its own key.  The empty cache of a fresh
process satisfies it trivially. -/
def GuidCacheOk (sha256hex : String → String) (cache : List (String × String)) : Prop :=
  ∀ p ∈ cache, p.2 = computeGuidOfKey sha256hex p.1

/-- The process-wide `rssCache` object of server.js.  `data` holds the
built feed document (`null` initially), `lastUpdated` and `cacheDuration`
are millisecond values, `fileHash` is the tracks-folder hash of the last
build.  The document type is abstract: the handlers never inspect it. -/
structure RssCacheState (Doc : Type) where
  data : Option Doc
  lastUpdated : Nat
  fileHash : String
  cacheDuration : Nat
deriving DecidableEq, Repr

/-- The staleness test of the `/rss.xml` handler:
`!rssCache.data || (now - rssCache.lastUpdated) > rssCache.cacheDuration ||
currentFolderHash !== rssCache.fileHash`. -/
def shouldRefreshCache {Doc : Type} (s : RssCacheState Doc) (now : Nat)
    (currentFolderHash : String) : Bool :=
  s.data.isNone || decide (s.cacheDuration < now - s.lastUpdated) ||
    (currentFolderHash != s.fileHash)

/-- The `/rss.xml` handler of server.js.  `now` is `Date.now()`,
`currentFolderHash` the awaited `getTracksFolderHash()`, and `build` the
outcome of the awaited `generateRssData(baseUrl)` (only consulted when a
refresh is triggered; a thrown build error jumps to the `catch` branch
before any cache field is assigned).  Returns the new cache state, the
response (`Except.ok` of the document the XML is built from, or the build
error), and whether `generateRssData` was invoked. -/
def handleRssXml {Doc : Type} (s : RssCacheState Doc) (now : Nat)
    (currentFolderHash : String) (build : Except String Doc) :
    RssCacheState Doc × Except String (Option Doc) × Bool :=
  if shouldRefreshCache s now currentFolderHash then
    match build with
    | Except.ok d =>
      (⟨some d, now, currentFolderHash, s.cacheDuration⟩, Except.ok (some d), true)
    | Except.error e => (s, Except.error e, true)
  else
    (s, Except.ok s.data, false)

/-- The cover filename computed by `processTrackCover`:
`'track_' + md5(filePath + ':' + stat.size).substring(0, 12) + '_' + coverSize + '.jpg'`.
The MD5 hex digest is abstracted as the parameter `md5hex`.  Note that the
embedded picture bytes are not an input: the key depends only on the file
path and byte size. -/
def trackCoverFilename (md5hex : String → String) (filePath : String) (size : Nat)
    (coverSize : Nat) : String :=
  "track_" ++ strTake (md5hex (filePath ++ ":" ++ toString size)) 12 ++ "_" ++
    toString coverSize ++ ".jpg"

/-- The cover filename computed by `processChannelCover`:
`'channel_' + md5(config.rss.channelImage).substring(0, 12) + '_' + coverSize + '.jpg'`. -/
def channelCoverFilename (md5hex : String → String) (channelImage : String)
    (coverSize : Nat) : String :=
  "channel_" ++ strTake (md5hex channelImage) 12 ++ "_" ++ toString coverSize ++ ".jpg"

/-- Result of a cover derivation call: the returned URL (if any), whether
control reached past the disk-cache check into the image pipeline, and the
covers-cache directory contents afterwards (list of stored file paths). -/
structure CoverOutcome where
  coverUrl : Option String
  pipelineInvoked : Bool
  store : List String
deriving DecidableEq, Repr

/-- Embeds `processTrackCover(metadata, filePath, stat, baseUrl)` from server.js.
`pictureData` is `metadata.common?.picture?.[0]?.data` (embedded cover
bytes, absent when the chain is missing); `store` is the set of files in
the covers cache directory (`fs.access(coverPath)` succeeds iff
`coverPath` is in it); `cropOk` is the outcome of the awaited
`cropToSquare`/`sharp().toFile` pipeline — on a throw the `catch` branch
returns `null`. -/
def processTrackCover (md5hex : String → String) (pictureData : Option (List Nat))
    (filePath : String) (stat : FileStat) (store : List String)
    (coversCacheDir baseUrl : String) (coverSize : Nat) (cropOk : Bool) : CoverOutcome :=
  match pictureData with
  | none => ⟨none, false, store⟩
  | some _bytes =>
    let coverFilename := trackCoverFilename md5hex filePath stat.size coverSize
    let coverPath := coversCacheDir ++ "/" ++ coverFilename
    if store.contains coverPath then
      ⟨some (baseUrl ++ "/covers_cache/" ++ coverFilename), false, store⟩
    else if cropOk then
      ⟨some (baseUrl ++ "/covers_cache/" ++ coverFilename), true, coverPath :: store⟩
    else
      ⟨none, true, store⟩

/-- Embeds `processChannelCover(baseUrl)` from server.js.  `channelImage` is
`config.rss.channelImage` (`none`/empty are both falsy); `downloadOk`
and `cropOk` are the outcomes of the awaited `downloadImage` and image
pipeline — any throw lands in the `catch` branch, which returns `''`.
The first component of the result is the returned URL string. -/
def processChannelCover (md5hex : String → String) (channelImage : Option String)
    (store : List String) (coversCacheDir baseUrl : String) (coverSize : Nat)
    (downloadOk cropOk : Bool) : String × Bool × List String :=
  match channelImage with
  | none => ("", false, store)
  | some img =>
    if img = "" then ("", false, store)
    else
      let coverFilename := channelCoverFilename md5hex img coverSize
      let coverPath := coversCacheDir ++ "/" ++ coverFilename
      if store.contains coverPath then
        (baseUrl ++ "/covers_cache/" ++ coverFilename, false, store)
      else if downloadOk && cropOk then
        (baseUrl ++ "/covers_cache/" ++ coverFilename, true, coverPath :: store)
      else
        ("", true, store)

/-- The contentKey as the specification words it: a hash of the source
bytes (the embedded picture data) plus the target size.  Declared only to
be compared with the key the source actually computes
(`trackCoverFilename`). -/
def contentKeySpec (hashBytes : List Nat → String) (sourceBytes : List Nat)
    (targetSizePixels : Nat) : String :=
  hashBytes sourceBytes ++ toString targetSizePixels

/-- Embeds `sharp(...).metadata()`: the source image dimensions. -/
structure ImageMeta where
  width : Nat
  height : Nat
deriving DecidableEq, Repr

/-- JavaScript `Math.round` on a non-negative rational: `⌊q + 1/2⌋`. -/
def jsRound (q : ℚ) : Nat :=
  (Int.toNat ⌊q + 1 / 2⌋)

/-- The image operation chosen by `cropToSquare`: pass the source through
unchanged (re-encoded only), extract a region then resize to a square of
side `target`, or resize preserving aspect ratio then extend with white
margins. -/
inductive CoverPlan where
  | passthrough
  | cropResize (left top side target : Nat)
  | padResize (newWidth newHeight top bottom left right target : Nat)
deriving DecidableEq, Repr

/-- Embeds `cropToSquare(imageBuffer, size)` from server.js, at the level of the
geometry it requests from `sharp`.  `cropMode` is
`config.rss.youtube.cropMode || 'crop'` (absent or empty fall back to
`'crop'`).  In the pad branch the source computes
`ratio = Math.min(size / width, size / height)` and
`Math.round(dimension * ratio)` in JS numbers, embedded as exact rational
arithmetic. -/
def cropToSquare (meta : ImageMeta) (size : Nat) (cropMode : Option String) : CoverPlan :=
  if meta.width = meta.height ∧ meta.width = size then
    CoverPlan.passthrough
  else
    let mode := match cropMode with
      | none => "crop"
      | some s => if s = "" then "crop" else s
    if mode = "crop" then
      let minSize := min meta.width meta.height
      let left := (meta.width - minSize) / 2
      let top := (meta.height - minSize) / 2
      CoverPlan.cropResize left top minSize size
    else
      let ratio : ℚ := min ((size : ℚ) / meta.width) ((size : ℚ) / meta.height)
      let newWidth := jsRound (meta.width * ratio)
      let newHeight := jsRound (meta.height * ratio)
      CoverPlan.padResize newWidth newHeight
        ((size - newHeight) / 2) (size - newHeight - (size - newHeight) / 2)
        ((size - newWidth) / 2) (size - newWidth - (size - newWidth) / 2)
        size

/-- The rectangular region of the source that ends up in the output:
the whole image for a passthrough, the extracted square for a crop
(`left`, `top`, `side`), nothing meaningful for the pad branch. -/
def extractedRegion (meta : ImageMeta) : CoverPlan → Option (Nat × Nat × Nat)
  | CoverPlan.passthrough => some (0, 0, meta.width)
  | CoverPlan.cropResize left top side _ => some (left, top, side)
  | CoverPlan.padResize _ _ _ _ _ _ _ => none

/-- The side of the square image produced by the plan. -/
def outputSide (meta : ImageMeta) : CoverPlan → Nat
  | CoverPlan.passthrough => meta.width
  | CoverPlan.cropResize _ _ _ target => target
  | CoverPlan.padResize _ _ _ _ _ _ target => target

/-- A feed item as far as the sorting and truncation step of
`generateRssData` observes it: `pubDateMs` is the numeric value of
`new Date(item.pubDate)` (the file's mtime), and `scanIdx` records the
item's position in directory-scan order (the array order before the
sort). -/
structure FeedItem where
  pubDateMs : Nat
  scanIdx : Nat
deriving DecidableEq, Repr

/-- One insertion step of the stable descending sort.  The source's
`items.sort((a, b) => new Date(b.pubDate) - new Date(a.pubDate))` is a
stable sort (guaranteed by the JS specification) under the comparator
"later date first"; a stable sort is extensionally unique, and this
insertion realizes it: `x`, which precedes the already-placed elements in
scan order, goes before the first element not strictly newer than it. -/
def insertByPubDateDesc (x : FeedItem) : List FeedItem → List FeedItem
  | [] => [x]
  | y :: ys =>
    if y.pubDateMs ≤ x.pubDateMs then x :: y :: ys
    else y :: insertByPubDateDesc x ys

/-- The stable descending sort of the feed items. -/
def sortByPubDateDesc (items : List FeedItem) : List FeedItem :=
  items.foldr insertByPubDateDesc []

/-- The sort-then-truncate tail of `generateRssData`:
`items.sort(...)`, `maxItems = Math.min(items.length, config.advanced.maxTracksInRSS)`,
`items.slice(0, maxItems)`. -/
def sortAndLimitItems (items : List FeedItem) (maxTracksInRSS : Nat) : List FeedItem :=
  let sorted := sortByPubDateDesc items
  let maxItems := min sorted.length maxTracksInRSS
  sorted.take maxItems

/-- The ordering that "publication timestamp descending, ties broken by
original scan order" requires between any two adjacent output items. -/
def ItemBefore (a b : FeedItem) : Prop :=
  b.pubDateMs < a.pubDateMs ∨ (a.pubDateMs = b.pubDateMs ∧ a.scanIdx < b.scanIdx)

/-- The `/refresh-rss` handler of server.js.  The source clears
`rssCache.data/lastUpdated/fileHash` *before* awaiting
`generateRssData`; a thrown build error jumps to the `catch` branch with
the cache already cleared. -/
def refreshRss {Doc : Type} (s : RssCacheState Doc) (now : Nat)
    (currentFolderHash : String) (build : Except String Doc) :
    RssCacheState Doc × Except String Doc :=
  let cleared : RssCacheState Doc := { s with data := none, lastUpdated := 0, fileHash := "" }
  match build with
  | Except.ok d =>
    ({ cleared with data := some d, lastUpdated := now, fileHash := currentFolderHash },
      Except.ok d)
  | Except.error e => (cleared, Except.error e)

/-- A JavaScript value as `getTagValue` can encounter it inside the
`music-metadata` result object: `undefined`, `null`, booleans, numbers,
strings, arrays and plain objects (association list of fields). -/
inductive JsValue where
  | vUndef
  | vNull
  | vBool (b : Bool)
  | vNum (n : Int)
  | vStr (s : String)
  | vArr (elems : List JsValue)
  | vObj (fields : List (String × JsValue))

/-- JavaScript truthiness: `undefined`, `null`, `false`, `0`, `''` are
falsy; every array and object (even empty) is truthy. -/
def truthy : JsValue → Bool
  | JsValue.vUndef => false
  | JsValue.vNull => false
  | JsValue.vBool b => b
  | JsValue.vNum n => n != 0
  | JsValue.vStr s => s != ""
  | JsValue.vArr _ => true
  | JsValue.vObj _ => true

/-- Property access `obj[part]` on a plain object: the stored value, or
`undefined` when the field is missing. -/
def getField (fields : List (String × JsValue)) (part : String) : JsValue :=
  match fields.find? (fun p => p.1 == part) with
  | some p => p.2
  | none => JsValue.vUndef

/-- Embeds `tagPath.split('.')` at the character level (the separator
is the single character `'.'`). -/
def splitPath (tagPath : String) : List String :=
  (tagPath.toList.splitOn '.').map List.asString

/-- The `for (const part of parts)` loop of `getTagValue`.  The guard
`value && typeof value === 'object'` holds exactly for arrays and plain
objects (`typeof null === 'object'` but `null` is falsy); any other value
triggers the early `return null`.  When the current value is an array the
loop sets `value = value[0]` — consuming the path component without using
it. -/
def walkParts : JsValue → List String → JsValue
  | value, [] => value
  | JsValue.vArr elems, _part :: rest => walkParts (elems.headD JsValue.vUndef) rest
  | JsValue.vObj fields, part :: rest => walkParts (getField fields part) rest
  | _, _ :: _ => JsValue.vNull

/-- The `if (Array.isArray(value)) value = value[0]` step after the
loop of `getTagValue`: unwrap one level of multiplicity.  `value[0]` of
an empty array is `undefined`. -/
def jsFirstOfArr : JsValue → JsValue
  | JsValue.vArr elems => elems.headD JsValue.vUndef
  | v => v

/-- Embeds `value || null`: a truthy value passes through, anything falsy
becomes the `null` sentinel. -/
def orNull (v : JsValue) : JsValue :=
  if truthy v then v else JsValue.vNull

/-- Embeds `getTagValue(metadata, tagPath)` from server.js: walk the dotted
path (`walkParts`), unwrap a trailing array by taking its first element
(`jsFirstOfArr`), and normalize with `return value || null` (`orNull`). -/
def getTagValue (metadata : JsValue) (tagPath : String) : JsValue :=
  orNull (jsFirstOfArr (walkParts metadata (splitPath tagPath)))

/-- Reference semantics for "the value addressed by the path": walk the
same way the loop does (field lookup on objects; on arrays, step into the
first element, consuming the component), but report absence as `none`
instead of collapsing it into `null`.  An empty array has no first
element, and hitting a non-container mid-path addresses nothing. -/
def lookupPath : JsValue → List String → Option JsValue
  | v, [] => some v
  | JsValue.vArr [], _ :: _ => none
  | JsValue.vArr (e :: _), _part :: rest => lookupPath e rest
  | JsValue.vObj fields, part :: rest =>
    match fields.find? (fun p => p.1 == part) with
    | some p => lookupPath p.2 rest
    | none => none
  | _, _ :: _ => none

/-- The addressed value of a dotted path, after the trailing one-level
multiplicity unwrap (first element of a repeated field; an empty repeated
field addresses `undefined`). -/
def addressedValue (metadata : JsValue) (tagPath : String) : Option JsValue :=
  (lookupPath metadata (splitPath tagPath)).map jsFirstOfArr

/-- One request of the `/rss.xml` handler split at its await points, for
reasoning about two interleaved requests: the staleness check
(`shouldRefreshCache`, computed after the awaited folder hash) and the
commit of a completed rebuild (the three assignments to `rssCache`). -/
def commitRebuild {Doc : Type} (s : RssCacheState Doc) (now : Nat)
    (currentFolderHash : String) (d : Doc) : RssCacheState Doc :=
  ⟨some d, now, currentFolderHash, s.cacheDuration⟩

/-- Two concurrent `/rss.xml` requests in the interleaving where both
staleness checks run before either rebuild commits (the rebuild is
awaited between the check and the commit, so this schedule is realizable).
Request i observes `shouldRefreshCache` on the shared state `s`, then (in
order 1, 2) commits its own build `dᵢ` if its check fired, and serves
`rssCache.data` as of its own resume point.  Returns the final state, the
two served documents, and the number of rebuilds performed. -/
def twoStaleRequestsRun {Doc : Type} (s : RssCacheState Doc) (now₁ now₂ : Nat)
    (hash : String) (d₁ d₂ : Doc) :
    RssCacheState Doc × (Option Doc × Option Doc) × Nat :=
  let r₁ := shouldRefreshCache s now₁ hash
  let r₂ := shouldRefreshCache s now₂ hash
  let s₁ := if r₁ then commitRebuild s now₁ hash d₁ else s
  let served₁ := s₁.data
  let s₂ := if r₂ then commitRebuild s₁ now₂ hash d₂ else s₁
  let served₂ := s₂.data
  (s₂, (served₁, served₂), (if r₁ then 1 else 0) + (if r₂ then 1 else 0))

end YtRss

namespace YtRss

/-! ## Helper lemmas -/

-- The early-return value of the loop for a non-container: any remaining
-- path makes `getTagValue` produce the null sentinel.
theorem walkParts_vUndef (rest : List String) :
    orNull (jsFirstOfArr (walkParts JsValue.vUndef rest)) = JsValue.vNull := by
  cases rest <;> rfl

-- The loop of `getTagValue` computes exactly the addressed value of the
-- reference walk, collapsed through the trailing unwrap and `|| null`.
theorem orNull_walkParts_eq_lookupPath (parts : List String) :
    ∀ value : JsValue,
      orNull (jsFirstOfArr (walkParts value parts)) =
        match lookupPath value parts with
        | none => JsValue.vNull
        | some v => orNull (jsFirstOfArr v) := by
  induction parts with
  | nil => intro value; simp [walkParts, lookupPath]
  | cons p rest ih =>
    intro value
    cases value with
    | vUndef => rfl
    | vNull => rfl
    | vBool b => rfl
    | vNum n => rfl
    | vStr s => rfl
    | vArr elems =>
      cases elems with
      | nil => simpa [walkParts, lookupPath] using walkParts_vUndef rest
      | cons e es => simpa [walkParts, lookupPath] using ih e
    | vObj fields =>
      cases hf : fields.find? (fun q => q.1 == p) with
      | none =>
        simpa [walkParts, lookupPath, getField, hf] using walkParts_vUndef rest
      | some pr =>
        simpa [walkParts, lookupPath, getField, hf] using ih pr.2

-- `getTagValue` in terms of the addressed value of the dotted path.
theorem getTagValue_eq_addressedValue (m : JsValue) (path : String) :
    getTagValue m path =
      match addressedValue m path with
      | none => JsValue.vNull
      | some v => orNull v := by
  have h := orNull_walkParts_eq_lookupPath (splitPath path) m
  unfold getTagValue addressedValue
  rw [h]
  cases lookupPath m (splitPath path) <;> rfl

theorem insertByPubDateDesc_perm (x : FeedItem) (l : List FeedItem) :
    (insertByPubDateDesc x l).Perm (x :: l) := by
  induction l with
  | nil => exact List.Perm.refl _
  | cons y ys ih =>
    unfold insertByPubDateDesc
    split
    · exact List.Perm.refl _
    · exact (ih.cons y).trans (List.Perm.swap x y ys)

theorem sortByPubDateDesc_perm (l : List FeedItem) :
    (sortByPubDateDesc l).Perm l := by
  induction l with
  | nil => exact List.Perm.refl _
  | cons x xs ih =>
    have h1 : sortByPubDateDesc (x :: xs) = insertByPubDateDesc x (sortByPubDateDesc xs) := rfl
    rw [h1]
    exact (insertByPubDateDesc_perm x (sortByPubDateDesc xs)).trans (ih.cons x)

-- Inserting an element whose scan index precedes everything already
-- placed preserves the "newer first, ties in scan order" invariant.
theorem insertByPubDateDesc_pairwise (x : FeedItem) (l : List FeedItem)
    (hl : l.Pairwise ItemBefore) (hidx : ∀ y ∈ l, x.scanIdx < y.scanIdx) :
    (insertByPubDateDesc x l).Pairwise ItemBefore := by
  induction l with
  | nil => simp [insertByPubDateDesc]
  | cons y ys ih =>
    rw [List.pairwise_cons] at hl
    unfold insertByPubDateDesc
    split
    case isTrue hle =>
      rw [List.pairwise_cons]
      refine ⟨?_, List.pairwise_cons.mpr hl⟩
      intro z hz
      rcases List.mem_cons.mp hz with hzy | hzys
      · subst hzy
        rcases Nat.lt_or_ge z.pubDateMs x.pubDateMs with hlt | hge
        · exact Or.inl hlt
        · have heq : x.pubDateMs = z.pubDateMs := Nat.le_antisymm hge hle
          exact Or.inr ⟨heq, hidx z (List.mem_cons_self _ _)⟩
      · rcases hl.1 z hzys with hlt | ⟨heq, _⟩
        · exact Or.inl (Nat.lt_of_lt_of_le hlt hle)
        · rcases Nat.lt_or_ge y.pubDateMs x.pubDateMs with hylt | hyge
          · exact Or.inl (heq ▸ hylt)
          · have hxy : x.pubDateMs = y.pubDateMs := Nat.le_antisymm hyge hle
            exact Or.inr ⟨hxy.trans heq, hidx z (List.mem_cons_of_mem _ hzys)⟩
    case isFalse hgt =>
      rw [List.pairwise_cons]
      constructor
      · intro z hz
        have hz' := ((insertByPubDateDesc_perm x ys).mem_iff).mp hz
        rcases List.mem_cons.mp hz' with hzx | hzys
        · subst hzx
          exact Or.inl (Nat.lt_of_not_le hgt)
        · exact hl.1 z hzys
      · exact ih hl.2 (fun y hy => hidx y (List.mem_cons_of_mem _ hy))

theorem sortByPubDateDesc_pairwise (l : List FeedItem)
    (hidx : l.Pairwise fun a b => a.scanIdx < b.scanIdx) :
    (sortByPubDateDesc l).Pairwise ItemBefore := by
  induction l with
  | nil => simp [sortByPubDateDesc]
  | cons x xs ih =>
    rw [List.pairwise_cons] at hidx
    have h1 : sortByPubDateDesc (x :: xs) = insertByPubDateDesc x (sortByPubDateDesc xs) := rfl
    rw [h1]
    refine insertByPubDateDesc_pairwise x _ (ih hidx.2) ?_
    intro y hy
    exact hidx.1 y ((sortByPubDateDesc_perm xs).mem_iff.mp hy)

-- Characterization of a cache hit in the `/rss.xml` staleness test.
theorem shouldRefreshCache_eq_false_iff {Doc : Type} (s : RssCacheState Doc)
    (now : Nat) (hash : String) :
    shouldRefreshCache s now hash = false ↔
      s.data ≠ none ∧ now - s.lastUpdated ≤ s.cacheDuration ∧ hash = s.fileHash := by
  unfold shouldRefreshCache
  simp [Option.isNone_eq_false_iff, Nat.not_lt, Option.isSome_iff_ne_none, and_assoc]

-- Under the guid-cache invariant the returned guid is the pure function
-- of path and size, whatever the memo table contains.
theorem generateStableGuid_fst (sha256hex : String → String)
    (cache : List (String × String)) (filePath : String) (stat : FileStat)
    (hc : GuidCacheOk sha256hex cache) :
    (generateStableGuid sha256hex cache filePath stat).1 =
      computeStableGuid sha256hex filePath stat.size := by
  unfold generateStableGuid computeStableGuid
  cases hfind : cache.find? (fun p => p.1 == (filePath ++ ":" ++ toString stat.size)) with
  | none => simp [hfind]
  | some p =>
    have hmem : p ∈ cache := List.mem_of_find?_eq_some hfind
    have hbeq := List.find?_some hfind
    have hkey : p.1 = filePath ++ ":" ++ toString stat.size := by
      simpa using hbeq
    simp [hfind, hc p hmem, hkey]

-- The guid-cache invariant is preserved by every call.
theorem generateStableGuid_cacheOk (sha256hex : String → String)
    (cache : List (String × String)) (filePath : String) (stat : FileStat)
    (hc : GuidCacheOk sha256hex cache) :
    GuidCacheOk sha256hex (generateStableGuid sha256hex cache filePath stat).2 := by
  unfold generateStableGuid
  cases hfind : cache.find? (fun p => p.1 == (filePath ++ ":" ++ toString stat.size)) with
  | some p => simpa [hfind] using hc
  | none =>
    simp only [hfind]
    intro q hq
    rcases List.mem_cons.mp hq with h | h
    · rw [h]
    · exact hc q h

/-! ## Claim theorems -/

/-- Claim C1: with an unchanged library signature and a second request
arriving while the cache age is within the TTL, the Feed Cache Controller
serves the identical cached document on the second request, performs no
rebuild (`generateRssData` is not invoked, whatever its outcome `build₂`
would be), and leaves the cache state untouched. -/
theorem rss_cache_hit_serves_same_document {Doc : Type} (s : RssCacheState Doc)
    (now₁ now₂ : Nat) (hash : String) (build₁ build₂ : Except String Doc) (d : Doc)
    (h₁ : (handleRssXml s now₁ hash build₁).2.1 = Except.ok (some d))
    (h₂ : now₂ - (handleRssXml s now₁ hash build₁).1.lastUpdated ≤
      (handleRssXml s now₁ hash build₁).1.cacheDuration) :
    handleRssXml (handleRssXml s now₁ hash build₁).1 now₂ hash build₂ =
      ((handleRssXml s now₁ hash build₁).1, Except.ok (some d), false) := by
  by_cases hr : shouldRefreshCache s now₁ hash = true
  · cases build₁ with
    | ok d₁ =>
      have hs₁ : (handleRssXml s now₁ hash (Except.ok d₁)).1 =
          ⟨some d₁, now₁, hash, s.cacheDuration⟩ := by
        simp [handleRssXml, hr]
      have hres : (handleRssXml s now₁ hash (Except.ok d₁)).2.1 = Except.ok (some d₁) := by
        simp [handleRssXml, hr]
      rw [hres] at h₁
      have hd : d₁ = d := by
        simpa using h₁
      subst hd
      rw [hs₁] at h₂ ⊢
      have hfalse : shouldRefreshCache
          (⟨some d₁, now₁, hash, s.cacheDuration⟩ : RssCacheState Doc) now₂ hash = false := by
        rw [shouldRefreshCache_eq_false_iff]
        exact ⟨by simp, h₂, rfl⟩
      simp [handleRssXml, hfalse]
    | error e =>
      have : (handleRssXml s now₁ hash (Except.error e : Except String Doc)).2.1 =
          Except.error e := by
        simp [handleRssXml, hr]
      rw [this] at h₁
      exact absurd h₁ (by simp)
  · have hr' : shouldRefreshCache s now₁ hash = false := by
      simpa using hr
    have hs₁ : (handleRssXml s now₁ hash build₁).1 = s := by
      simp [handleRssXml, hr']
    have hres : (handleRssXml s now₁ hash build₁).2.1 = Except.ok s.data := by
      simp [handleRssXml, hr']
    rw [hres] at h₁
    have hdata : s.data = some d := by
      simpa using h₁
    rw [hs₁] at h₂ ⊢
    obtain ⟨-, -, hhash⟩ := (shouldRefreshCache_eq_false_iff s now₁ hash).mp hr'
    have hfalse : shouldRefreshCache s now₂ hash = false := by
      rw [shouldRefreshCache_eq_false_iff]
      exact ⟨by rw [hdata]; simp, h₂, hhash⟩
    simp [handleRssXml, hfalse, hdata]

/-- Witness for C1 at a concrete state: a warm cache within TTL and
unchanged hash serves `some 5` twice with no rebuild on the second
request. -/
theorem rss_cache_hit_serves_same_document_witness :
    (handleRssXml (⟨some 5, 0, "h", 1000⟩ : RssCacheState Nat) 100 "h" (Except.ok 9)).2.1 =
        Except.ok (some 5) ∧
      handleRssXml (handleRssXml (⟨some 5, 0, "h", 1000⟩ : RssCacheState Nat) 100 "h" (Except.ok 9)).1
          200 "h" (Except.error "down") =
        ((handleRssXml (⟨some 5, 0, "h", 1000⟩ : RssCacheState Nat) 100 "h" (Except.ok 9)).1,
          Except.ok (some 5), false) :=
  ⟨rfl, rss_cache_hit_serves_same_document _ 100 200 "h" _ _ 5 rfl (by decide)⟩

/-- Claim C2 (amended): a rebuild failure in the non-forced `/rss.xml`
path leaves the cache state untouched, reports the build error, and the
stale entry stays servable on a later non-forced request; but the
forced-refresh entry point clears the entry before rebuilding, so a
failure there leaves `data = none`. -/
theorem rebuild_failure_cache_preservation_amended {Doc : Type} (s : RssCacheState Doc)
    (d : Doc) (now now₂ : Nat) (hash hash₂ : String) (e : String) (build₂ : Except String Doc)
    (hd : s.data = some d) :
    (handleRssXml s now hash (Except.error e)).1 = s ∧
    (shouldRefreshCache s now hash = true →
      (handleRssXml s now hash (Except.error e)).2.1 = Except.error e) ∧
    (hash₂ = s.fileHash → now₂ - s.lastUpdated ≤ s.cacheDuration →
      handleRssXml s now₂ hash₂ build₂ = (s, Except.ok (some d), false)) ∧
    (refreshRss s now hash (Except.error e)).1.data = none := by
  refine ⟨?_, ?_, ?_, rfl⟩
  · by_cases hr : shouldRefreshCache s now hash = true
    · simp [handleRssXml, hr]
    · simp [handleRssXml, hr]
  · intro hr
    simp [handleRssXml, hr]
  · intro hh hle
    have hfalse : shouldRefreshCache s now₂ hash₂ = false := by
      rw [shouldRefreshCache_eq_false_iff]
      exact ⟨by rw [hd]; simp, hle, hh⟩
    simp [handleRssXml, hfalse, hd]

/-- Witness for the amended C2 at a concrete state. -/
theorem rebuild_failure_cache_preservation_amended_witness :
    ((⟨some 3, 0, "h", 1000⟩ : RssCacheState Nat).data = some 3) ∧
    (handleRssXml (⟨some 3, 0, "h", 1000⟩ : RssCacheState Nat) 50 "h2"
        (Except.error "No audio files found in tracks folder")).1 = ⟨some 3, 0, "h", 1000⟩ ∧
    handleRssXml (⟨some 3, 0, "h", 1000⟩ : RssCacheState Nat) 60 "h"
        (Except.error "No audio files found in tracks folder") =
      (⟨some 3, 0, "h", 1000⟩, Except.ok (some 3), false) :=
  ⟨rfl,
    (rebuild_failure_cache_preservation_amended (⟨some 3, 0, "h", 1000⟩ : RssCacheState Nat) 3 50 60
      "h2" "h" "No audio files found in tracks folder"
      (Except.error "No audio files found in tracks folder") rfl).1,
    (rebuild_failure_cache_preservation_amended (⟨some 3, 0, "h", 1000⟩ : RssCacheState Nat) 3 50 60
      "h2" "h" "No audio files found in tracks folder"
      (Except.error "No audio files found in tracks folder") rfl).2.2.1 rfl (by decide)⟩

/-- Counterexample to C2 as stated: from a state holding the valid entry
`some 7`, a forced refresh whose rebuild fails (zero audio files) leaves
`data = none` — the previously valid entry is destroyed — and a
subsequent non-forced request must itself rebuild and, while the error
persists, gets the build error instead of the stale entry. -/
theorem refresh_failure_destroys_cache_counterexample :
    ((⟨some 7, 5, "h", 300000⟩ : RssCacheState Nat).data = some 7) ∧
    (refreshRss (⟨some 7, 5, "h", 300000⟩ : RssCacheState Nat) 10 "h"
        (Except.error "No audio files found in tracks folder")).1.data = none ∧
    (handleRssXml (refreshRss (⟨some 7, 5, "h", 300000⟩ : RssCacheState Nat) 10 "h"
        (Except.error "No audio files found in tracks folder")).1 20 "h"
        (Except.error "No audio files found in tracks folder")).2.1 =
      Except.error "No audio files found in tracks folder" :=
  ⟨rfl, rfl, rfl⟩

/-- Claim C3: the Identifier Generator returns
`computeStableGuid sha256hex filePath stat.size` — a pure deterministic
function of the path and size only (a digest of `path:size`, formatted as
a UUID-shaped string behind the `urn:uuid:` marker) — on every call:
whatever the memo table contains (provided it only caches previously
computed guids, as the empty table of a fresh process does), the result is
the same, the invariant is preserved, and a stat differing only in
modification time yields the same identifier. -/
theorem generateStableGuid_deterministic (sha256hex : String → String)
    (cache : List (String × String)) (filePath : String) (stat : FileStat)
    (hc : GuidCacheOk sha256hex cache) :
    (generateStableGuid sha256hex cache filePath stat).1 =
      computeStableGuid sha256hex filePath stat.size ∧
    GuidCacheOk sha256hex (generateStableGuid sha256hex cache filePath stat).2 ∧
    (∀ stat' : FileStat, stat'.size = stat.size →
      (generateStableGuid sha256hex cache filePath stat').1 =
        (generateStableGuid sha256hex cache filePath stat).1) ∧
    (∀ cache' : List (String × String), GuidCacheOk sha256hex cache' →
      (generateStableGuid sha256hex cache' filePath stat).1 =
        (generateStableGuid sha256hex cache filePath stat).1) := by
  refine ⟨generateStableGuid_fst sha256hex cache filePath stat hc,
    generateStableGuid_cacheOk sha256hex cache filePath stat hc, ?_, ?_⟩
  · intro stat' hsz
    rw [generateStableGuid_fst sha256hex cache filePath stat' hc,
      generateStableGuid_fst sha256hex cache filePath stat hc, hsz]
  · intro cache' hc'
    rw [generateStableGuid_fst sha256hex cache' filePath stat hc',
      generateStableGuid_fst sha256hex cache filePath stat hc]

/-- Witness for C3: the empty memo table of a fresh process satisfies the
invariant, and the call computes the pure guid of the path and size. -/
theorem generateStableGuid_deterministic_witness :
    GuidCacheOk id ([] : List (String × String)) ∧
    (generateStableGuid id [] "/tracks/a.mp3" ⟨100, 7⟩).1 =
      computeStableGuid id "/tracks/a.mp3" 100 :=
  ⟨fun p hp => absurd hp (List.not_mem_nil p),
    (generateStableGuid_deterministic id [] "/tracks/a.mp3" ⟨100, 7⟩
      (fun p hp => absurd hp (List.not_mem_nil p))).1⟩

/-- Counterexample to C4 as stated: two track-cover requests whose
embedded picture bytes differ (`[1]` vs `[2]`) but whose file path and
size agree produce identical outcomes — the stored key does not depend on
the source bytes — whereas a key that hashed the source bytes (the
specification reading, `contentKeySpec`) would distinguish them. -/
theorem trackCover_contentKey_ignores_bytes_counterexample :
    processTrackCover id (some [1]) "/tracks/a.mp3" ⟨100, 0⟩ [] "/cache" "http://h" 3000 true =
      processTrackCover id (some [2]) "/tracks/a.mp3" ⟨100, 0⟩ [] "/cache" "http://h" 3000 true ∧
    ([1] : List Nat) ≠ [2] ∧
    contentKeySpec (fun bs => toString (bs.headD 0)) [1] 3000 ≠
      contentKeySpec (fun bs => toString (bs.headD 0)) [2] 3000 :=
  ⟨rfl, by decide, by decide⟩

/-- Claim C4 (amended): the track-cover cache key is a deterministic hash
of the file path and byte size plus the target size (the picture bytes do
not enter it), the channel-cover key hashes the channel image URL; and for
any request whose key already has a stored asset, the stored URL is
returned without reaching the image pipeline, so a derivation for a given
key happens at most once (a successful derivation stores the key and the
next identical request is a pure cache hit). -/
theorem cover_cache_key_and_idempotence_amended (md5hex : String → String)
    (b₁ b₂ : List Nat) (filePath : String) (stat : FileStat) (store : List String)
    (dir base : String) (cs : Nat) (cropOk : Bool) (img : String)
    (storeC : List String) (downloadOk cropOkC : Bool) :
    processTrackCover md5hex (some b₁) filePath stat store dir base cs cropOk =
      processTrackCover md5hex (some b₂) filePath stat store dir base cs cropOk ∧
    (store.contains (dir ++ "/" ++ trackCoverFilename md5hex filePath stat.size cs) = true →
      processTrackCover md5hex (some b₁) filePath stat store dir base cs cropOk =
        ⟨some (base ++ "/covers_cache/" ++ trackCoverFilename md5hex filePath stat.size cs),
          false, store⟩) ∧
    (store.contains (dir ++ "/" ++ trackCoverFilename md5hex filePath stat.size cs) = false →
      (processTrackCover md5hex (some b₁) filePath stat store dir base cs true).pipelineInvoked
          = true ∧
      processTrackCover md5hex (some b₂) filePath stat
          (processTrackCover md5hex (some b₁) filePath stat store dir base cs true).store
          dir base cs cropOk =
        ⟨some (base ++ "/covers_cache/" ++ trackCoverFilename md5hex filePath stat.size cs),
          false,
          (dir ++ "/" ++ trackCoverFilename md5hex filePath stat.size cs) :: store⟩) ∧
    (storeC.contains (dir ++ "/" ++ channelCoverFilename md5hex img cs) = true → img ≠ "" →
      processChannelCover md5hex (some img) storeC dir base cs downloadOk cropOkC =
        (base ++ "/covers_cache/" ++ channelCoverFilename md5hex img cs, false, storeC)) := by
  refine ⟨rfl, ?_, ?_, ?_⟩
  · intro hhit
    have hmem : dir ++ "/" ++ trackCoverFilename md5hex filePath stat.size cs ∈ store := by
      simpa using hhit
    simp [processTrackCover, hmem]
  · intro hmiss
    have hnmem : dir ++ "/" ++ trackCoverFilename md5hex filePath stat.size cs ∉ store := by
      simpa using hmiss
    constructor
    · simp [processTrackCover, hnmem]
    · have hstore : (processTrackCover md5hex (some b₁) filePath stat store dir base cs
          true).store =
        (dir ++ "/" ++ trackCoverFilename md5hex filePath stat.size cs) :: store := by
        simp [processTrackCover, hnmem]
      rw [hstore]
      simp [processTrackCover]
  · intro hhit himg
    have hmem : dir ++ "/" ++ channelCoverFilename md5hex img cs ∈ storeC := by
      simpa using hhit
    simp [processChannelCover, himg, hmem]

/-- Witness for the amended C4: with the asset already on disk, the
stored URL comes back and the pipeline flag stays false. -/
theorem cover_cache_key_and_idempotence_amended_witness :
    ((["/c/" ++ trackCoverFilename id "/t/a.mp3" 100 3000] : List String).contains
        ("/c/" ++ trackCoverFilename id "/t/a.mp3" 100 3000) = true) ∧
    processTrackCover id (some [9]) "/t/a.mp3" ⟨100, 0⟩
        ["/c/" ++ trackCoverFilename id "/t/a.mp3" 100 3000] "/c" "http://h" 3000 true =
      ⟨some ("http://h" ++ "/covers_cache/" ++ trackCoverFilename id "/t/a.mp3" 100 3000),
        false, ["/c/" ++ trackCoverFilename id "/t/a.mp3" 100 3000]⟩ :=
  ⟨by simp [List.contains_cons],
    (cover_cache_key_and_idempotence_amended id [9] [9] "/t/a.mp3" ⟨100, 0⟩
      ["/c/" ++ trackCoverFilename id "/t/a.mp3" 100 3000] "/c" "http://h" 3000 true
      "img" [] true true).2.1 (by simp [List.contains_cons])⟩

/-- Claim C5 (amended): the handler has no single-flight guard — in the
interleaving where both concurrent requests run their staleness check
before either rebuild commits, each request that observed a stale entry
performs its own independent rebuild (two rebuilds, not one), each serves
its own result, and the second commit overwrites the first. -/
theorem concurrent_stale_requests_each_rebuild_amended {Doc : Type}
    (s : RssCacheState Doc) (now₁ now₂ : Nat) (hash : String) (d₁ d₂ : Doc)
    (h₁ : shouldRefreshCache s now₁ hash = true)
    (h₂ : shouldRefreshCache s now₂ hash = true) :
    twoStaleRequestsRun s now₁ now₂ hash d₁ d₂ =
      (commitRebuild (commitRebuild s now₁ hash d₁) now₂ hash d₂,
        (some d₁, some d₂), 2) := by
  simp [twoStaleRequestsRun, h₁, h₂, commitRebuild]

/-- Witness for the amended C5 at a concrete stale state. -/
theorem concurrent_stale_requests_each_rebuild_amended_witness :
    shouldRefreshCache (⟨some 0, 0, "old", 300000⟩ : RssCacheState Nat) 1000 "new" = true ∧
    twoStaleRequestsRun (⟨some 0, 0, "old", 300000⟩ : RssCacheState Nat) 1000 1001 "new" 1 2 =
      (commitRebuild (commitRebuild (⟨some 0, 0, "old", 300000⟩ : RssCacheState Nat)
          1000 "new" 1) 1001 "new" 2, (some 1, some 2), 2) :=
  ⟨rfl, concurrent_stale_requests_each_rebuild_amended _ 1000 1001 "new" 1 2 rfl rfl⟩

/-- Counterexample to C5 as stated: two concurrent requests that both
observe the stale entry trigger two rebuilds, not exactly one, and they
do not observe a single shared result (`some 1` vs `some 2`). -/
theorem concurrent_stale_double_rebuild_counterexample :
    (twoStaleRequestsRun (⟨some 0, 0, "old", 300000⟩ : RssCacheState Nat) 1000 1001 "new" 1 2).2.2 = 2 ∧
    (twoStaleRequestsRun (⟨some 0, 0, "old", 300000⟩ : RssCacheState Nat) 1000 1001 "new" 1 2).2.1 =
      (some 1, some 2) ∧
    (some 1 : Option Nat) ≠ some 2 ∧ (2 : Nat) ≠ 1 :=
  ⟨rfl, rfl, by decide, by decide⟩

/-- Claim C6: for every source with known width and height, crop mode
keeps exactly the centered square of side `min w h` at offsets
`(w - min w h) / 2`, `(h - min w h) / 2` (floors) and produces a square
of side `targetSizePixels` (in the already-square-at-target case the
source passes through, which is that same region); in particular a
4000×2000 source at target 1000 extracts 2000×2000 at left 1000, top 0,
scaled to 1000×1000. -/
theorem cropToSquare_centered_square_geometry :
    (∀ w h size : Nat,
      extractedRegion ⟨w, h⟩ (cropToSquare ⟨w, h⟩ size (some "crop")) =
        some ((w - min w h) / 2, (h - min w h) / 2, min w h) ∧
      outputSide ⟨w, h⟩ (cropToSquare ⟨w, h⟩ size (some "crop")) = size) ∧
    cropToSquare ⟨4000, 2000⟩ 1000 (some "crop") = CoverPlan.cropResize 1000 0 2000 1000 := by
  constructor
  · intro w h size
    unfold cropToSquare
    split
    case isTrue hp =>
      obtain ⟨hwh, hws⟩ := hp
      simp only [ImageMeta.mk.injEq] at hwh hws
      subst hwh
      constructor
      · simp [extractedRegion, Nat.min_self]
      · simpa [outputSide] using hws
    case isFalse hp =>
      simp [extractedRegion, outputSide]
  · decide

/-- Claim C7: the Feed Assembler sorts by publication timestamp
descending with ties broken by scan order (the output is pairwise ordered
by `ItemBefore` and a permutation of the input) and truncates only after
sorting; in particular timestamps `[2, 1, 3]` sort to `[3, 2, 1]` and a
maximum count of 2 keeps `[3, 2]`. -/
theorem feed_items_sorted_desc_stable_truncated (items : List FeedItem) (maxTracks : Nat)
    (hidx : items.Pairwise fun a b => a.scanIdx < b.scanIdx) :
    (sortByPubDateDesc items).Pairwise ItemBefore ∧
    (sortByPubDateDesc items).Perm items ∧
    sortAndLimitItems items maxTracks =
      (sortByPubDateDesc items).take (min items.length maxTracks) ∧
    sortByPubDateDesc [⟨2, 0⟩, ⟨1, 1⟩, ⟨3, 2⟩] = [⟨3, 2⟩, ⟨2, 0⟩, ⟨1, 1⟩] ∧
    sortAndLimitItems [⟨2, 0⟩, ⟨1, 1⟩, ⟨3, 2⟩] 2 = [⟨3, 2⟩, ⟨2, 0⟩] := by
  refine ⟨sortByPubDateDesc_pairwise items hidx, sortByPubDateDesc_perm items, ?_, rfl, rfl⟩
  simp only [sortAndLimitItems, (sortByPubDateDesc_perm items).length_eq]

/-- Witness for C7 at the concrete three-item list of the claim. -/
theorem feed_items_sorted_desc_stable_truncated_witness :
    ([⟨2, 0⟩, ⟨1, 1⟩, ⟨3, 2⟩] : List FeedItem).Pairwise
        (fun a b => a.scanIdx < b.scanIdx) ∧
    (sortByPubDateDesc [⟨2, 0⟩, ⟨1, 1⟩, ⟨3, 2⟩]).Pairwise ItemBefore ∧
    sortAndLimitItems [⟨2, 0⟩, ⟨1, 1⟩, ⟨3, 2⟩] 2 = [⟨3, 2⟩, ⟨2, 0⟩] :=
  ⟨by decide,
    (feed_items_sorted_desc_stable_truncated [⟨2, 0⟩, ⟨1, 1⟩, ⟨3, 2⟩] 2 (by decide)).1,
    (feed_items_sorted_desc_stable_truncated [⟨2, 0⟩, ⟨1, 1⟩, ⟨3, 2⟩] 2 (by decide)).2.2.2.2⟩

/-- Claim C8: `formatDuration` renders `M:SS` when the hour component is
zero and `H:MM:SS` when it is nonzero, with the minute and second parts
being the exact base-60 decomposition; 0 seconds renders as "00:00",
125 as "2:05", 3725 as "1:02:05". -/
theorem formatDuration_shapes :
    (∀ n : Nat, 0 < n → n < 3600 →
      formatDuration n = toString (n / 60) ++ ":" ++ pad2 (n % 60)) ∧
    (∀ n : Nat, 3600 ≤ n →
      formatDuration n =
        toString (n / 3600) ++ ":" ++ pad2 (n % 3600 / 60) ++ ":" ++ pad2 (n % 60)) ∧
    formatDuration 0 = "00:00" ∧ formatDuration 125 = "2:05" ∧
    formatDuration 3725 = "1:02:05" := by
  refine ⟨?_, ?_, rfl, by decide, by decide⟩
  · intro n h0 h36
    have hne : n ≠ 0 := Nat.pos_iff_ne_zero.mp h0
    have hdiv : n / 3600 = 0 := Nat.div_eq_of_lt h36
    have hmod : n % 3600 = n := Nat.mod_eq_of_lt h36
    simp [formatDuration, hne, hdiv, hmod]
  · intro n h36
    have hne : n ≠ 0 := by omega
    have hdiv : 0 < n / 3600 := Nat.div_pos h36 (by decide)
    simp [formatDuration, hne, hdiv]

/-- Witness for C8 at the concrete durations of the claim. -/
theorem formatDuration_shapes_witness :
    (0 < 125 ∧ 125 < 3600 ∧
      formatDuration 125 = toString (125 / 60) ++ ":" ++ pad2 (125 % 60)) ∧
    (3600 ≤ 3725 ∧
      formatDuration 3725 =
        toString (3725 / 3600) ++ ":" ++ pad2 (3725 % 3600 / 60) ++ ":" ++ pad2 (3725 % 60)) :=
  ⟨⟨by decide, by decide, formatDuration_shapes.1 125 (by decide) (by decide)⟩,
    ⟨by decide, formatDuration_shapes.2.1 3725 (by decide)⟩⟩

/-- Counterexample to C9 as stated: the path "a" addresses a present
value (the number 0), yet `getTagValue` returns the `null` sentinel — so
the sentinel is not returned exactly when the addressed value is absent. -/
theorem getTagValue_null_for_present_falsy_counterexample :
    addressedValue (JsValue.vObj [("a", JsValue.vNum 0)]) "a" = some (JsValue.vNum 0) ∧
    getTagValue (JsValue.vObj [("a", JsValue.vNum 0)]) "a" = JsValue.vNull :=
  ⟨rfl, rfl⟩

/-- Claim C9 (amended): `getTagValue` walks the dotted path through the
nested containers, unwrapping one level of multiplicity by taking the
first element of a repeated field, and returns the `null` sentinel when
the addressed value is absent or present but falsy; a present truthy
value is returned itself. -/
theorem getTagValue_sentinel_amended (m : JsValue) (path : String) :
    getTagValue m path =
      match addressedValue m path with
      | none => JsValue.vNull
      | some v => orNull v :=
  getTagValue_eq_addressedValue m path

/-- Claim C10: a present but falsy addressed value (the number 0, the
empty string, `false`) makes `getTagValue` return `null` — the very
sentinel returned for an absent value — so callers cannot distinguish a
present-but-empty tag from a missing one. -/
theorem getTagValue_falsy_collapse (m m' : JsValue) (path path' : String) (v : JsValue)
    (hv : addressedValue m path = some v) (hfalsy : truthy v = false)
    (habsent : addressedValue m' path' = none) :
    getTagValue m path = JsValue.vNull ∧
    getTagValue m' path' = JsValue.vNull ∧
    getTagValue m path = getTagValue m' path' := by
  have h1 := getTagValue_eq_addressedValue m path
  have h2 := getTagValue_eq_addressedValue m' path'
  rw [hv] at h1
  rw [habsent] at h2
  simp only [orNull, hfalsy, Bool.false_eq_true, if_false] at h1
  exact ⟨h1, h2, h1.trans h2.symm⟩

/-- Witness for C10: a present empty-string title and an absent title both
yield the `null` sentinel. -/
theorem getTagValue_falsy_collapse_witness :
    addressedValue (JsValue.vObj [("title", JsValue.vStr "")]) "title" =
        some (JsValue.vStr "") ∧
    truthy (JsValue.vStr "") = false ∧
    addressedValue (JsValue.vObj [("artist", JsValue.vStr "x")]) "title" = none ∧
    getTagValue (JsValue.vObj [("title", JsValue.vStr "")]) "title" = JsValue.vNull ∧
    getTagValue (JsValue.vObj [("title", JsValue.vStr "")]) "title" =
      getTagValue (JsValue.vObj [("artist", JsValue.vStr "x")]) "title" :=
  ⟨rfl, rfl, rfl,
    (getTagValue_falsy_collapse (JsValue.vObj [("title", JsValue.vStr "")])
      (JsValue.vObj [("artist", JsValue.vStr "x")]) "title" "title" (JsValue.vStr "")
      rfl rfl rfl).1,
    (getTagValue_falsy_collapse (JsValue.vObj [("title", JsValue.vStr "")])
      (JsValue.vObj [("artist", JsValue.vStr "x")]) "title" "title" (JsValue.vStr "")
      rfl rfl rfl).2.2⟩

end YtRss
